import Mathlib

/-!
# Verification of the Tauri HTTP bridge frontend (sternelee/open-chatui)

A shallow embedding, in Lean 4, of the request-routing / bridging layer in
`src/frontend/src/lib/tauri-http-proxy.js`, `src/frontend/src/lib/tauri-bridge.js`
and `src/frontend/src/lib/tauri-seamless-integration.js`, together with proofs
about the path classifiers, the response translation (UTF-8 codec), the redirect
loop, the fallback controller, the XHR emulation state machine, the configuration
override operation and the readiness-gate retry counter.

Conventions of the embedding:
* JS strings are Lean `String`s; prefix tests (`url.startsWith(p)`) are modelled by
  `jsStartsWith`, which operates on the underlying character list so that concrete
  instances evaluate inside the kernel.
* Byte arrays crossing the native boundary are `List Nat` (each entry a byte value;
  the `Uint8Array` constructor's coercion is modelled by reduction mod 256).
* `TextDecoder('utf-8')` (non-fatal) is modelled by `utf8Decode`, following the
  WHATWG UTF-8 decoding algorithm (invalid sequences produce U+FFFD); the UTF-8
  bytes of the JS string handed to `new Response(...)` are `utf8Encode`.
* Promise rejection / thrown exceptions are `Except String` values.
* The module-level mutable `CONFIG` object of tauri-http-proxy is modelled by a
  heap (`ModuleHeap`) mapping references to configuration records, so that
  in-place mutation is distinguishable from wholesale replacement.
-/

/-- `s.startsWith(p)` of JS: `p` is a literal prefix of `s`. -/
def jsStartsWith (s p : String) : Bool :=
  s.data.take p.data.length == p.data

/-- ASCII lower-casing of a single character (header-name normalization of `Headers`). -/
def lowerAsciiChar (c : Char) : Char :=
  if 'A' ≤ c ∧ c ≤ 'Z' then Char.ofNat (c.toNat + 32) else c

/-- ASCII lower-casing of a string. -/
def lowerAscii (s : String) : String :=
  ⟨s.data.map lowerAsciiChar⟩

/-- The Request Envelope sent over the native channel
(`{ uri, method, headers, body }` in both proxy modules; the `body` field is
absent (`none`) when omitted). -/
structure RequestEnvelope where
  uri : String
  method : String
  headers : List (String × String)
  body : Option String
deriving DecidableEq, Repr

/-- The Response Envelope returned by the native handler
(`{ status_code, headers, body }`, `body` an array of byte values). -/
structure ResponseEnvelope where
  status_code : Nat
  headers : List (String × String)
  body : List Nat
deriving DecidableEq, Repr

/-- The options bag handed to `fetch(url, options)` by a caller. -/
structure FetchOptions where
  method : Option String
  headers : List (String × String)
  body : Option String
deriving DecidableEq, Repr

/-- The `CONFIG` object of `tauri-http-proxy.js` (lines 12-40). -/
structure HpConfig where
  tauriCommand : String
  proxyPaths : List String
  excludePaths : List String
  debug : Bool
deriving DecidableEq, Repr

/-- Default `CONFIG` of `tauri-http-proxy.js`. -/
def defaultHpConfig : HpConfig :=
  { tauriCommand := "handle_http_request",
    proxyPaths := ["/api", "/openai", "/ws", "/health", "/socket.io"],
    excludePaths := ["/static", "/assets", "/favicon", "/manifest.json",
                     "data:", "blob:", "ipc://", "http://", "https://"],
    debug := false }

/-- `shouldProxy(url)` of `tauri-http-proxy.js` (lines 58-81): every exclude
prefix is tested against the raw URL first and forces `false`; only URLs
starting with `/` are then tested against the proxy-path prefixes. The
function body cannot throw on a string input, so the `catch` branch
(returning `false`) is unreachable and the embedding is total. -/
def shouldProxy (cfg : HpConfig) (url : String) : Bool :=
  if cfg.excludePaths.any (fun p => jsStartsWith url p) then false
  else if jsStartsWith url "/" then cfg.proxyPaths.any (fun p => jsStartsWith url p)
  else false

/-- The `CONFIG` object of `tauri-bridge.js` (lines 18-48). -/
structure BridgeConfig where
  enabled : Bool
  fallbackBaseUrl : String
  bridgePaths : List String
  excludePaths : List String
deriving DecidableEq, Repr

/-- Default `CONFIG` of `tauri-bridge.js`. -/
def defaultBridgeConfig : BridgeConfig :=
  { enabled := true,
    fallbackBaseUrl := "http://localhost:8168",
    bridgePaths := ["/api/config", "/api/models", "/api/chat/completions",
                    "/api/embeddings", "/api/auth/login", "/api/auth/register",
                    "/api/user/profile", "/api/health", "/health", "/openai/",
                    "/socket.io/", "/ws/socket.io/"],
    excludePaths := ["/static/", "/assets/", "/favicon", "/manifest.json"] }

/-- Splits the scheme off an absolute http(s) URL, returning the remainder. -/
def schemeSplit (url : String) : Option String :=
  if jsStartsWith url "https://" then some ⟨url.data.drop 8⟩
  else if jsStartsWith url "http://" then some ⟨url.data.drop 7⟩
  else none

/-- Characters ending the host component of a URL. -/
def isHostEnd (c : Char) : Bool :=
  c = '/' || c = '?' || c = '#'

/-- Characters ending the path component of a URL. -/
def isPathEnd (c : Char) : Bool :=
  c = '?' || c = '#'

/-- Model of `new URL(url, window.location.origin).pathname` restricted to the URL
shapes this layer routes: absolute http(s) URLs (parse host, then path; an empty
host makes the constructor throw, modelled as `none`), origin-relative URLs
(`/...`), and bare relative paths (resolved against the origin's `/`). Dot-segment
normalization, userinfo and ports are not modelled. `none` models the constructor
throwing on a malformed URL. -/
def parseUrlPathname (url : String) : Option String :=
  match schemeSplit url with
  | some rest =>
    let host := rest.data.takeWhile (fun c => !(isHostEnd c))
    if host.isEmpty then none
    else
      let after := rest.data.drop host.length
      if after.head? = some '/' then some ⟨after.takeWhile (fun c => !(isPathEnd c))⟩
      else some "/"
  | none =>
    if jsStartsWith url "/" then some ⟨url.data.takeWhile (fun c => !(isPathEnd c))⟩
    else some ⟨'/' :: url.data.takeWhile (fun c => !(isPathEnd c))⟩

/-- The decision core of `shouldUseBridge` in `tauri-bridge.js` (lines 163-178),
operating on the parsed pathname: excluded paths first (forcing `false`), then
bridge paths (prefix or exact match), then the default `/api/`-or-`/ws/` heuristic. -/
def bridgeDecision (cfg : BridgeConfig) (pathname : String) : Bool :=
  if cfg.excludePaths.any (fun p => jsStartsWith pathname p) then false
  else if cfg.bridgePaths.any (fun p => jsStartsWith pathname p || pathname == p) then true
  else jsStartsWith pathname "/api/" || jsStartsWith pathname "/ws/"

/-- `shouldUseBridge(url)` of `tauri-bridge.js` (lines 158-183): parse the URL
(the `try`), classify the pathname; a parse failure is caught and yields `false`. -/
def shouldUseBridge (cfg : BridgeConfig) (url : String) : Bool :=
  match parseUrlPathname url with
  | some pathname => bridgeDecision cfg pathname
  | none => false

/-- One step of the WHATWG UTF-8 decoder (the behavior of `TextDecoder('utf-8')`
in its default non-fatal mode): given the lead byte `b` and the remaining
stream `bs`, produce the decoded code point (U+FFFD on error) and the rest of
the stream (an offending continuation byte is pushed back, per the algorithm). -/
def utf8DecodeStep (b : Nat) (bs : List Nat) : Nat × List Nat :=
  if b ≤ 0x7F then (b, bs)
  else if 0xC2 ≤ b ∧ b ≤ 0xDF then
    match bs with
    | b1 :: bs1 =>
      if 0x80 ≤ b1 ∧ b1 ≤ 0xBF then ((b - 0xC0) * 0x40 + (b1 - 0x80), bs1)
      else (0xFFFD, b1 :: bs1)
    | [] => (0xFFFD, [])
  else if 0xE0 ≤ b ∧ b ≤ 0xEF then
    match bs with
    | b1 :: bs1 =>
      if (if b = 0xE0 then 0xA0 else 0x80) ≤ b1 ∧ b1 ≤ (if b = 0xED then 0x9F else 0xBF) then
        match bs1 with
        | b2 :: bs2 =>
          if 0x80 ≤ b2 ∧ b2 ≤ 0xBF then
            ((b - 0xE0) * 0x1000 + (b1 - 0x80) * 0x40 + (b2 - 0x80), bs2)
          else (0xFFFD, b2 :: bs2)
        | [] => (0xFFFD, [])
      else (0xFFFD, b1 :: bs1)
    | [] => (0xFFFD, [])
  else if 0xF0 ≤ b ∧ b ≤ 0xF4 then
    match bs with
    | b1 :: bs1 =>
      if (if b = 0xF0 then 0x90 else 0x80) ≤ b1 ∧ b1 ≤ (if b = 0xF4 then 0x8F else 0xBF) then
        match bs1 with
        | b2 :: bs2 =>
          if 0x80 ≤ b2 ∧ b2 ≤ 0xBF then
            match bs2 with
            | b3 :: bs3 =>
              if 0x80 ≤ b3 ∧ b3 ≤ 0xBF then
                ((b - 0xF0) * 0x40000 + (b1 - 0x80) * 0x1000 + (b2 - 0x80) * 0x40 + (b3 - 0x80), bs3)
              else (0xFFFD, b3 :: bs3)
            | [] => (0xFFFD, [])
          else (0xFFFD, b2 :: bs2)
        | [] => (0xFFFD, [])
      else (0xFFFD, b1 :: bs1)
    | [] => (0xFFFD, [])
  else (0xFFFD, bs)

/-- One step of a UTF-8 validity check, mirroring `utf8DecodeStep`: `some rest`
when `b :: bs` starts with a well-formed encoded scalar value whose suffix is
`rest`, `none` otherwise. -/
def utf8ValidStep (b : Nat) (bs : List Nat) : Option (List Nat) :=
  if b ≤ 0x7F then some bs
  else if 0xC2 ≤ b ∧ b ≤ 0xDF then
    match bs with
    | b1 :: bs1 => if 0x80 ≤ b1 ∧ b1 ≤ 0xBF then some bs1 else none
    | [] => none
  else if 0xE0 ≤ b ∧ b ≤ 0xEF then
    match bs with
    | b1 :: bs1 =>
      if (if b = 0xE0 then 0xA0 else 0x80) ≤ b1 ∧ b1 ≤ (if b = 0xED then 0x9F else 0xBF) then
        match bs1 with
        | b2 :: bs2 => if 0x80 ≤ b2 ∧ b2 ≤ 0xBF then some bs2 else none
        | [] => none
      else none
    | [] => none
  else if 0xF0 ≤ b ∧ b ≤ 0xF4 then
    match bs with
    | b1 :: bs1 =>
      if (if b = 0xF0 then 0x90 else 0x80) ≤ b1 ∧ b1 ≤ (if b = 0xF4 then 0x8F else 0xBF) then
        match bs1 with
        | b2 :: bs2 =>
          if 0x80 ≤ b2 ∧ b2 ≤ 0xBF then
            match bs2 with
            | b3 :: bs3 => if 0x80 ≤ b3 ∧ b3 ≤ 0xBF then some bs3 else none
            | [] => none
          else none
        | [] => none
      else none
    | [] => none
  else none

/-- Fueled driver of the WHATWG UTF-8 decoder; `fuel ≥ length` always suffices
because every step consumes at least the lead byte. -/
def utf8DecodeGo : Nat → List Nat → List Nat
  | _, [] => []
  | 0, _ :: _ => []
  | fuel + 1, b :: bs =>
    (utf8DecodeStep b bs).1 :: utf8DecodeGo fuel (utf8DecodeStep b bs).2

/-- `TextDecoder('utf-8').decode(bytes)`, as the list of decoded code points. -/
def utf8Decode (bs : List Nat) : List Nat :=
  utf8DecodeGo bs.length bs

/-- Fueled driver of the UTF-8 validity check. -/
def validUtf8Go : Nat → List Nat → Bool
  | _, [] => true
  | 0, _ :: _ => false
  | fuel + 1, b :: bs =>
    match utf8ValidStep b bs with
    | some rest => validUtf8Go fuel rest
    | none => false

/-- `bs` is a well-formed UTF-8 byte sequence. -/
def validUtf8 (bs : List Nat) : Bool :=
  validUtf8Go bs.length bs

/-- The UTF-8 encoding of one scalar value (the bytes a JS string character
contributes to the body of a `Response`). -/
def utf8EncodeCp (c : Nat) : List Nat :=
  if c ≤ 0x7F then [c]
  else if c ≤ 0x7FF then [0xC0 + c / 0x40, 0x80 + c % 0x40]
  else if c ≤ 0xFFFF then [0xE0 + c / 0x1000, 0x80 + c / 0x40 % 0x40, 0x80 + c % 0x40]
  else [0xF0 + c / 0x40000, 0x80 + c / 0x1000 % 0x40, 0x80 + c / 0x40 % 0x40, 0x80 + c % 0x40]

/-- The UTF-8 encoding of a sequence of scalar values. -/
def utf8Encode (cs : List Nat) : List Nat :=
  (cs.map utf8EncodeCp).flatten

/-- Every entry of `bs` is a byte value. -/
def isByteList (bs : List Nat) : Bool :=
  bs.all (fun b => b < 256)

/-- Header-name normalization performed by `new Headers(response.headers)`:
names are ASCII-lowercased, values kept. -/
def lowerHeaders (hs : List (String × String)) : List (String × String) :=
  hs.map (fun kv => (lowerAscii kv.1, kv.2))

/-- The observable state of the JS `Response` handed back by the bridged
`fetch`: its status, its headers, and the text of its body as a list of code
points (the body string the caller can read; its byte view is
`responseBodyBytes`). -/
structure BridgedResponse where
  status : Nat
  headers : List (String × String)
  bodyText : List Nat
deriving DecidableEq, Repr

/-- The response translation of `tauri-http-proxy.js` `proxyFetch` (lines
152-166), identical in `tauri-bridge.js` (lines 101-134) for an array body:
`new Uint8Array(response.body)` (coercion mod 256), decoded as UTF-8 text
unconditionally — the declared `content-type` is never consulted — and wrapped
in `new Response(bodyText, { status, headers })`. -/
def translateResponse (r : ResponseEnvelope) : BridgedResponse :=
  { status := r.status_code,
    headers := lowerHeaders r.headers,
    bodyText := utf8Decode (r.body.map (fun b => b % 256)) }

/-- The body bytes a caller observes when reading the translated `Response`
as bytes: the UTF-8 encoding of its body text. -/
def responseBodyBytes (r : BridgedResponse) : List Nat :=
  utf8Encode r.bodyText

/-- The redirect status codes tested by both modules:
`[301, 302, 303, 307, 308].includes(...)`. -/
def REDIRECT_CODES : List Nat := [301, 302, 303, 307, 308]

/-- `response.headers["location"]` (exact-key lookup on the headers mapping). -/
def headerValue (hs : List (String × String)) (name : String) : Option String :=
  (hs.find? (fun kv => kv.1 == name)).map (fun kv => kv.2)

/-- The GET-only redirect Request Envelope both modules build
(`{ uri: location, method: 'GET', headers: {}, body: null/absent }`). -/
def mkRedirectRequest (loc : String) : RequestEnvelope :=
  { uri := loc, method := "GET", headers := [], body := none }

/-- The redirect `while` loop of `tauri-bridge.js` `proxyFetch` (lines 87-99),
instrumented with fuel: the source loop has no iteration bound, so `fuel`
counts loop iterations we are willing to observe; `none` means the loop was
still running (still receiving redirect responses) after `fuel` iterations —
there is no cap check or cap error in the source. -/
def redirectChase (inv : RequestEnvelope → ResponseEnvelope) :
    Nat → ResponseEnvelope → Option ResponseEnvelope
  | 0, _ => none
  | fuel + 1, r =>
    if REDIRECT_CODES.contains r.status_code then
      redirectChase inv fuel
        (inv (mkRedirectRequest ((headerValue r.headers "location").getD "")))
    else some r

/-- A concrete always-redirecting Response Envelope: status 302 with a
`location` header. -/
def redirect302 : ResponseEnvelope :=
  { status_code := 302, headers := [("location", "/api/config")], body := [] }

/-- A native handler that answers every request with `redirect302`. -/
def alwaysRedirect : RequestEnvelope → ResponseEnvelope :=
  fun _ => redirect302

/-- `handleRedirect(response)` of `tauri-http-proxy.js` (lines 86-110): a single
redirect hop — on a 3xx status with a `location` header, re-invoke once and
return that response (redirected or not); otherwise return the input. The
invoker is passed explicitly (in the source, `handleRedirect` names `invoke`,
which at module scope is only bound inside `proxyFetch` / `proxyRequest`). -/
def hpHandleRedirect (inv : RequestEnvelope → Except String ResponseEnvelope)
    (r : ResponseEnvelope) : Except String ResponseEnvelope :=
  if REDIRECT_CODES.contains r.status_code then
    match headerValue r.headers "location" with
    | some loc => inv (mkRedirectRequest loc)
    | none => Except.ok r
  else Except.ok r

/-- JS truthiness of an optional string (`undefined`/`null`/`''` are falsy). -/
def jsTruthy : Option String → Bool
  | none => false
  | some s => !(s == "")

/-- `a || d` of JS on an optional string: the default wins when `a` is falsy. -/
def jsOr (a : Option String) (d : String) : String :=
  match a with
  | some s => if s == "" then d else s
  | none => d

/-- `options?.method` for an optional options bag. -/
def optMethod (opts : Option FetchOptions) : Option String :=
  opts.bind (fun o => o.method)

/-- `options?.body` for an optional options bag. -/
def optBody (opts : Option FetchOptions) : Option String :=
  opts.bind (fun o => o.body)

/-- `options?.headers || {}` for an optional options bag. -/
def optHeaders (opts : Option FetchOptions) : List (String × String) :=
  (opts.map (fun o => o.headers)).getD []

/-- `new URL(url).pathname + new URL(url).search` for the absolute URLs reaching
the request builder of `tauri-bridge.js`; simplified like `parseUrlPathname`
(the fragment is stripped, a missing path becomes `/`). -/
def pathAndSearch (url : String) : String :=
  match schemeSplit url with
  | some rest =>
    let host := rest.data.takeWhile (fun c => !(isHostEnd c))
    let after := rest.data.drop host.length
    match after.head? with
    | some '/' => ⟨after.takeWhile (fun c => c ≠ '#')⟩
    | some '?' => ⟨'/' :: after.takeWhile (fun c => c ≠ '#')⟩
    | _ => "/"
  | none => url

/-- The `uri` field built by `tauri-bridge.js` `proxyFetch` (line 77):
`url.startsWith('http') ? new URL(url).pathname + new URL(url).search : url`. -/
def bridgeUri (url : String) : String :=
  if jsStartsWith url "http" then pathAndSearch url else url

/-- The Request Envelope built by `tauri-bridge.js` `proxyFetch` (lines 76-81):
`method` defaults to GET, and the `body` field is included only when
`options?.body` is truthy (`...(options?.body && { body: options.body })`) —
the method is never consulted. -/
def mkBridgeRequest (url : String) (opts : Option FetchOptions) : RequestEnvelope :=
  { uri := bridgeUri url,
    method := jsOr (optMethod opts) "GET",
    headers := optHeaders opts,
    body := if jsTruthy (optBody opts) then optBody opts else none }

/-- The Request Envelope built by `tauri-http-proxy.js` `proxyFetch` (lines
136-142): the `body` field is always `options.body` (possibly undefined),
regardless of method. -/
def mkHpRequest (url : String) (opts : Option FetchOptions) : RequestEnvelope :=
  { uri := url,
    method := jsOr (optMethod opts) "GET",
    headers := optHeaders opts,
    body := optBody opts }

/-- The `try` block of `tauri-http-proxy.js` `proxyFetch` (lines 135-166):
invoke the native handler, apply the single-hop redirect resolver, translate
the response. Any rejection along the way propagates as the error. -/
def hpBridgeAttempt (inv : RequestEnvelope → Except String ResponseEnvelope)
    (url : String) (opts : Option FetchOptions) : Except String BridgedResponse :=
  match inv (mkHpRequest url opts) with
  | Except.error e => Except.error e
  | Except.ok r =>
    match hpHandleRedirect inv r with
    | Except.error e => Except.error e
    | Except.ok r2 => Except.ok (translateResponse r2)

/-- The patched `window.fetch` of `tauri-http-proxy.js` (lines 124-175):
non-proxied URLs go to the saved original fetch; proxied URLs run
`hpBridgeAttempt`, and the `catch` block falls back to the original fetch with
the identical original arguments — the bridge error itself is only logged. -/
def hpProxyFetch (inv : RequestEnvelope → Except String ResponseEnvelope)
    (orig : String → Option FetchOptions → Except String BridgedResponse)
    (cfg : HpConfig) (url : String) (opts : Option FetchOptions) :
    Except String BridgedResponse :=
  if shouldProxy cfg url then
    match hpBridgeAttempt inv url opts with
    | Except.ok resp => Except.ok resp
    | Except.error _ => orig url opts
  else orig url opts

/-- An invoker whose channel invocation always rejects (unreachable backend). -/
def bridgeDown : RequestEnvelope → Except String ResponseEnvelope :=
  fun _ => Except.error "bridge unreachable"

/-- An original fetch that always rejects (real network also unreachable). -/
def networkDown : String → Option FetchOptions → Except String BridgedResponse :=
  fun _ _ => Except.error "network unreachable"

/-- An original fetch that always succeeds with an empty 200 response. -/
def networkOk : String → Option FetchOptions → Except String BridgedResponse :=
  fun _ _ => Except.ok { status := 200, headers := [], bodyText := [] }

/-- A patch for `setConfig(newConfig)` / `initialize(_, options)` of
`tauri-http-proxy.js`: the fields the caller chooses to override. -/
structure ConfigPatch where
  tauriCommand : Option String
  proxyPaths : Option (List String)
  excludePaths : Option (List String)
  debug : Option Bool
deriving DecidableEq, Repr

/-- `Object.assign(target, patch)` on an `HpConfig`-shaped object: the patched
fields are overwritten, the rest keep their values. -/
def objectAssign (c : HpConfig) (p : ConfigPatch) : HpConfig :=
  { tauriCommand := p.tauriCommand.getD c.tauriCommand,
    proxyPaths := p.proxyPaths.getD c.proxyPaths,
    excludePaths := p.excludePaths.getD c.excludePaths,
    debug := p.debug.getD c.debug }

/-- The mutable heap of the tauri-http-proxy module: object references (`Nat`)
to configuration records, plus the reference held by the module-level `const
CONFIG` binding. Other live references into the same heap model readers that
captured the configuration object. -/
structure ModuleHeap where
  store : Nat → HpConfig
  configRef : Nat

/-- Dereferencing the `CONFIG` binding. -/
def readCONFIG (h : ModuleHeap) : HpConfig :=
  h.store h.configRef

/-- `setConfig(newConfig)` of `tauri-http-proxy.js` (lines 545-547):
`Object.assign(CONFIG, newConfig)` — the object the `CONFIG` reference points
to is mutated field-by-field; no new object is allocated and the binding is
not changed. (`initialize`, line 464, performs the identical assignment.) -/
def setConfig (h : ModuleHeap) (p : ConfigPatch) : ModuleHeap :=
  { store := fun i => if i = h.configRef then objectAssign (h.store h.configRef) p else h.store i,
    configRef := h.configRef }

/-- The module heap right after load: one configuration object holding the
default `CONFIG`. -/
def initialHeap : ModuleHeap :=
  { store := fun _ => defaultHpConfig, configRef := 0 }

/-- A `setConfig({ debug: true })` patch. -/
def debugPatch : ConfigPatch :=
  { tauriCommand := none, proxyPaths := none, excludePaths := none, debug := some true }

/-- Events observable on the emulated XHR of `tauri-bridge.js` (lines 240-367):
`readystatechange` dispatches (tagged with the `readyState` at dispatch time),
the `onload` completion callback, and the `onerror` callback. -/
inductive XhrEvent where
  | readystatechange (state : Nat)
  | load
  | errorEv
deriving DecidableEq, Repr

/-- The observable state of one `ProxyXMLHttpRequest`: its `readyState`, the
aborted flag of its `AbortController`, and the chronological list of events
fired so far. -/
structure Xhr where
  readyState : Nat
  aborted : Bool
  events : List XhrEvent
deriving DecidableEq, Repr

/-- Appending a fired event. -/
def fire (x : Xhr) (e : XhrEvent) : Xhr :=
  { readyState := x.readyState, aborted := x.aborted, events := x.events ++ [e] }

/-- `new ProxyXMLHttpRequest()` (lines 241-262): `readyState = 0` and a
`readystatechange` dispatch at the end of the constructor. -/
def newXhr : Xhr :=
  fire { readyState := 0, aborted := false, events := [] } (XhrEvent.readystatechange 0)

/-- `open(...)` (lines 264-272): `readyState = 1`, fire `readystatechange`. -/
def openXhr (x : Xhr) : Xhr :=
  fire { readyState := 1, aborted := x.aborted, events := x.events } (XhrEvent.readystatechange 1)

/-- The synchronous start of `send` (lines 289-290): `readyState = 2`, fire
`readystatechange`, then hand the request to `fetch`. -/
def sendStart (x : Xhr) : Xhr :=
  fire { readyState := 2, aborted := x.aborted, events := x.events } (XhrEvent.readystatechange 2)

/-- `abort()` (lines 319-323): `controller.abort()`, `readyState = 0`, fire
`readystatechange`. -/
def abortXhr (x : Xhr) : Xhr :=
  fire { readyState := 0, aborted := true, events := x.events } (XhrEvent.readystatechange 0)

/-- The first `then` of `send` (lines 293-301): headers parsed, `readyState = 3`,
fire `readystatechange`. -/
def headersStep (x : Xhr) : Xhr :=
  fire { readyState := 3, aborted := x.aborted, events := x.events } (XhrEvent.readystatechange 3)

/-- The second `then` of `send` (lines 303-308): `readyState = 4`, fire
`readystatechange`, then call `onload` — the normal completion. -/
def doneStep (x : Xhr) : Xhr :=
  fire (fire { readyState := 4, aborted := x.aborted, events := x.events }
    (XhrEvent.readystatechange 4)) XhrEvent.load

/-- The `catch` of `send` (lines 310-312): only `onerror` is called. -/
def catchStep (x : Xhr) : Xhr :=
  fire x XhrEvent.errorEv

/-- One complete open/send run of the emulated XHR, on the single-threaded
event loop. `honorsSignal` states whether the underlying fetch reacts to the
`AbortController` signal passed in `send`'s options: the real (pass-through)
fetch does, while the patched bridged fetch never reads `options.signal`, so a
bridged operation resolves normally even after `abort()`. `a1` schedules an
`abort()` call before the response microtask, `a2` between the headers
microtask and the completion microtask. When the fetch honors an aborted
signal its promise rejects and the `catch` runs instead of the `then` steps. -/
def runSend (honorsSignal a1 a2 : Bool) : Xhr :=
  let x0 := sendStart (openXhr newXhr)
  let x1 := if a1 then abortXhr x0 else x0
  if x1.aborted && honorsSignal then catchStep x1
  else
    let x2 := headersStep x1
    let x3 := if a2 then abortXhr x2 else x2
    if x3.aborted && honorsSignal then catchStep x3 else doneStep x3

/-- The XHR `readyState` value named UNSENT. -/
def UNSENT : Nat := 0

/-- `retryAttempts` of `tauri-seamless-integration.js` `INTEGRATION_CONFIG`. -/
def INTEGRATION_retryAttempts : Nat := 3

/-- The module-level state of `tauri-seamless-integration.js` (lines 44-46):
`isInitialized`, `isBackendReady` and the process-wide `retryCount`. -/
structure IntState where
  isInitialized : Bool
  isBackendReady : Bool
  retryCount : Nat
deriving DecidableEq, Repr

/-- The module state right after load. -/
def initialIntState : IntState :=
  { isInitialized := false, isBackendReady := false, retryCount := 0 }

/-- `reset()` (lines 360-365): the only operation that sets `retryCount` to 0. -/
def reset (_s : IntState) : IntState :=
  { isInitialized := false, isBackendReady := false, retryCount := 0 }

/-- `initialize(options)` (lines 131-197) with `autoConnect`: already
initialized → immediate success; `waitForBackendReady()` consults the `ready`
oracle (indexed by the current `retryCount`) — on timeout the `catch` sets
`isInitialized = false` and rethrows, leaving `retryCount` untouched; on
success `isBackendReady = true` and `testApiConnection()` consults the `api`
oracle: on failure with `retryCount < retryAttempts` the counter is
incremented and `initialize` recurses; otherwise `isInitialized = true` and
the call completes — no path writes 0 into `retryCount`. -/
def runInitialize (ready api : Nat → Bool) (s : IntState) : Except IntState IntState :=
  if s.isInitialized then Except.ok s
  else if ready s.retryCount = false then
    Except.error { isInitialized := false, isBackendReady := s.isBackendReady,
                   retryCount := s.retryCount }
  else
    if _h : api s.retryCount = false ∧ s.retryCount < INTEGRATION_retryAttempts then
      runInitialize ready api
        { isInitialized := s.isInitialized, isBackendReady := true,
          retryCount := s.retryCount + 1 }
    else
      Except.ok { isInitialized := true, isBackendReady := true, retryCount := s.retryCount }
termination_by INTEGRATION_retryAttempts + 1 - s.retryCount
decreasing_by omega

/-- The module state an `initialize` call leaves behind, whether it returned
normally (`ok`) or threw (`error`). -/
def intStateOf (e : Except IntState IntState) : IntState :=
  match e with
  | Except.ok s => s
  | Except.error s => s

/-- A Response Envelope whose body is the UTF-8 JSON text of scenario 1 of the
spec (`{"name":"test"}`). -/
def jsonEnvelope : ResponseEnvelope :=
  { status_code := 200,
    headers := [("content-type", "application/json")],
    body := [123, 34, 110, 97, 109, 101, 34, 58, 34, 116, 101, 115, 116, 34, 125] }

/-- A Response Envelope with a declared binary content type and a body byte
that is not valid UTF-8. -/
def binEnvelope : ResponseEnvelope :=
  { status_code := 200,
    headers := [("content-type", "application/octet-stream")],
    body := [255] }

/-- An options bag erroneously supplying a body with method GET. -/
def getWithBody : FetchOptions :=
  { method := some "GET", headers := [], body := some "x" }

/-! ## Helper lemmas: the UTF-8 codec round-trip -/

/-- Unfolding lemma for `validUtf8Go` on a cons cell. -/
theorem validUtf8Go_cons (n b : Nat) (bs : List Nat) :
    validUtf8Go (n + 1) (b :: bs) =
      match utf8ValidStep b bs with
      | some rest => validUtf8Go n rest
      | none => false := rfl

/-- Unfolding lemma for `utf8DecodeGo` on a cons cell. -/
theorem utf8DecodeGo_cons (n b : Nat) (bs : List Nat) :
    utf8DecodeGo (n + 1) (b :: bs) =
      (utf8DecodeStep b bs).1 :: utf8DecodeGo n (utf8DecodeStep b bs).2 := rfl

/-- An encoded scalar value occupies at least one byte. -/
theorem encCpLenPos (c : Nat) : 1 ≤ (utf8EncodeCp c).length := by
  unfold utf8EncodeCp
  split_ifs <;> simp

/-- ASCII scalar values encode to themselves. -/
theorem encCp1 (b : Nat) (hb : b ≤ 0x7F) : utf8EncodeCp b = [b] := by
  unfold utf8EncodeCp
  rw [if_pos hb]

/-- A well-formed 2-byte sequence is the encoding of the scalar value the
decoder assembles from it, prepended to any tail. -/
theorem encCp2Cons (b b1 : Nat) (bs : List Nat)
    (hb : 0xC2 ≤ b ∧ b ≤ 0xDF) (hb1 : 0x80 ≤ b1 ∧ b1 ≤ 0xBF) :
    utf8EncodeCp ((b - 0xC0) * 0x40 + (b1 - 0x80)) ++ bs = b :: b1 :: bs := by
  obtain ⟨hbl, hbr⟩ := hb
  obtain ⟨hb1l, hb1r⟩ := hb1
  unfold utf8EncodeCp
  rw [if_neg (by omega), if_pos (by omega)]
  simp only [List.cons_append, List.nil_append, List.cons.injEq]
  refine ⟨by omega, by omega, trivial⟩

/-- A well-formed 3-byte sequence (scalar value at least U+0800) is the
encoding of the scalar value the decoder assembles from it. -/
theorem encCp3Cons (b b1 b2 : Nat) (bs : List Nat)
    (hb : 0xE0 ≤ b ∧ b ≤ 0xEF) (hb1 : 0x80 ≤ b1 ∧ b1 ≤ 0xBF) (hb2 : 0x80 ≤ b2 ∧ b2 ≤ 0xBF)
    (hc : 0x800 ≤ (b - 0xE0) * 0x1000 + (b1 - 0x80) * 0x40 + (b2 - 0x80)) :
    utf8EncodeCp ((b - 0xE0) * 0x1000 + (b1 - 0x80) * 0x40 + (b2 - 0x80)) ++ bs =
      b :: b1 :: b2 :: bs := by
  obtain ⟨hbl, hbr⟩ := hb
  obtain ⟨hb1l, hb1r⟩ := hb1
  obtain ⟨hb2l, hb2r⟩ := hb2
  unfold utf8EncodeCp
  rw [if_neg (by omega), if_neg (by omega), if_pos (by omega)]
  simp only [List.cons_append, List.nil_append, List.cons.injEq]
  refine ⟨by omega, by omega, by omega, trivial⟩

/-- A well-formed 4-byte sequence (scalar value at least U+10000) is the
encoding of the scalar value the decoder assembles from it. -/
theorem encCp4Cons (b b1 b2 b3 : Nat) (bs : List Nat)
    (hb : 0xF0 ≤ b ∧ b ≤ 0xF4) (hb1 : 0x80 ≤ b1 ∧ b1 ≤ 0xBF) (hb2 : 0x80 ≤ b2 ∧ b2 ≤ 0xBF)
    (hb3 : 0x80 ≤ b3 ∧ b3 ≤ 0xBF)
    (hc : 0x10000 ≤ (b - 0xF0) * 0x40000 + (b1 - 0x80) * 0x1000 + (b2 - 0x80) * 0x40 + (b3 - 0x80)) :
    utf8EncodeCp ((b - 0xF0) * 0x40000 + (b1 - 0x80) * 0x1000 + (b2 - 0x80) * 0x40 + (b3 - 0x80))
      ++ bs = b :: b1 :: b2 :: b3 :: bs := by
  obtain ⟨hbl, hbr⟩ := hb
  obtain ⟨hb1l, hb1r⟩ := hb1
  obtain ⟨hb2l, hb2r⟩ := hb2
  obtain ⟨hb3l, hb3r⟩ := hb3
  unfold utf8EncodeCp
  rw [if_neg (by omega), if_neg (by omega), if_neg (by omega)]
  simp only [List.cons_append, List.nil_append, List.cons.injEq]
  refine ⟨by omega, by omega, by omega, by omega, trivial⟩

/-- ASCII bytes decode and re-encode to themselves, prepended to any tail. -/
theorem encCp1Cons (b : Nat) (bs : List Nat) (hb : b ≤ 0x7F) :
    utf8EncodeCp b ++ bs = b :: bs := by
  rw [encCp1 b hb]
  rfl


set_option maxHeartbeats 1000000 in
/-- Soundness of one validity step: a well-formed leading sequence decodes to a
scalar value whose encoding restores exactly the consumed bytes. -/
theorem utf8StepSound (b : Nat) (bs rest : List Nat)
    (h : utf8ValidStep b bs = some rest) :
    ∃ c, utf8DecodeStep b bs = (c, rest) ∧ utf8EncodeCp c ++ rest = b :: bs := by
  rcases bs with _ | ⟨b1, _ | ⟨b2, _ | ⟨b3, bs3⟩⟩⟩
  · simp only [utf8ValidStep] at h
    simp only [utf8DecodeStep]
    split_ifs at h ⊢
    all_goals obtain rfl := Option.some.inj h
    · exact ⟨_, rfl, encCp1Cons b _ (by omega)⟩
  · simp only [utf8ValidStep] at h
    simp only [utf8DecodeStep]
    split_ifs at h ⊢
    all_goals obtain rfl := Option.some.inj h
    · exact ⟨_, rfl, encCp1Cons b _ (by omega)⟩
    · exact ⟨_, rfl, encCp2Cons b b1 _ (by omega) (by omega)⟩
  · simp only [utf8ValidStep] at h
    simp only [utf8DecodeStep]
    split_ifs at h ⊢
    all_goals obtain rfl := Option.some.inj h
    all_goals try (exfalso; omega)
    · exact ⟨_, rfl, encCp1Cons b _ (by omega)⟩
    · exact ⟨_, rfl, encCp2Cons b b1 _ (by omega) (by omega)⟩
    · exact ⟨_, rfl, encCp3Cons b b1 b2 _ (by omega) (by omega) (by omega) (by omega)⟩
    · exact ⟨_, rfl, encCp3Cons b b1 b2 _ (by omega) (by omega) (by omega) (by omega)⟩
    · exact ⟨_, rfl, encCp3Cons b b1 b2 _ (by omega) (by omega) (by omega) (by omega)⟩
  · simp only [utf8ValidStep] at h
    simp only [utf8DecodeStep]
    split_ifs at h ⊢
    all_goals obtain rfl := Option.some.inj h
    all_goals try (exfalso; omega)
    · exact ⟨_, rfl, encCp1Cons b _ (by omega)⟩
    · exact ⟨_, rfl, encCp2Cons b b1 _ (by omega) (by omega)⟩
    · exact ⟨_, rfl, encCp3Cons b b1 b2 _ (by omega) (by omega) (by omega) (by omega)⟩
    · exact ⟨_, rfl, encCp3Cons b b1 b2 _ (by omega) (by omega) (by omega) (by omega)⟩
    · exact ⟨_, rfl, encCp3Cons b b1 b2 _ (by omega) (by omega) (by omega) (by omega)⟩
    · exact ⟨_, rfl, encCp4Cons b b1 b2 b3 _ (by omega) (by omega) (by omega) (by omega) (by omega)⟩
    · exact ⟨_, rfl, encCp4Cons b b1 b2 b3 _ (by omega) (by omega) (by omega) (by omega) (by omega)⟩
    · exact ⟨_, rfl, encCp4Cons b b1 b2 b3 _ (by omega) (by omega) (by omega) (by omega) (by omega)⟩

/-- Fueled round-trip: decoding a valid UTF-8 sequence and re-encoding the
resulting scalar values restores the original bytes. -/
theorem utf8RoundGo (fuel : Nat) :
    ∀ bs : List Nat, bs.length ≤ fuel → validUtf8Go fuel bs = true →
      utf8Encode (utf8DecodeGo fuel bs) = bs := by
  induction fuel with
  | zero =>
    intro bs hl _
    rcases bs with _ | ⟨b, t⟩
    · rfl
    · simp at hl
  | succ n ih =>
    intro bs hl hv
    rcases bs with _ | ⟨b, bs1⟩
    · rfl
    · rw [validUtf8Go_cons] at hv
      rcases hstep : utf8ValidStep b bs1 with _ | rest
      · rw [hstep] at hv
        exact absurd hv (by simp)
      · rw [hstep] at hv
        obtain ⟨c, hdec, henc⟩ := utf8StepSound b bs1 rest hstep
        have hlen : rest.length ≤ n := by
          have hl2 := congrArg List.length henc
          simp only [List.length_append, List.length_cons] at hl2
          have hll := encCpLenPos c
          simp only [List.length_cons] at hl
          omega
        rw [utf8DecodeGo_cons, hdec]
        show utf8Encode (c :: utf8DecodeGo n rest) = b :: bs1
        have : utf8Encode (c :: utf8DecodeGo n rest) =
            utf8EncodeCp c ++ utf8Encode (utf8DecodeGo n rest) := by
          simp [utf8Encode]
        rw [this, ih rest hlen hv]
        exact henc

/-- Round-trip: on valid UTF-8 input, `utf8Encode` inverts `utf8Decode`. -/
theorem utf8RoundTrip (bs : List Nat) (h : validUtf8 bs = true) :
    utf8Encode (utf8Decode bs) = bs :=
  utf8RoundGo bs.length bs le_rfl h

/-- The `Uint8Array` coercion is the identity on byte-valued lists. -/
theorem byteListMapMod (bs : List Nat) (h : isByteList bs = true) :
    bs.map (fun b => b % 256) = bs := by
  induction bs with
  | nil => rfl
  | cons b t ih =>
    simp only [isByteList, List.all_cons, Bool.and_eq_true] at h
    have hb : b % 256 = b := Nat.mod_eq_of_lt (by simpa using h.1)
    have ht := ih (by simpa [isByteList] using h.2)
    simp [hb, ht]

/-! ## Claim theorems -/

/-- Claim C3: for every URL whose normalized path matches any exclude-list
prefix, the classifier's bridge decision is false regardless of include-list
membership, exclude prefixes being checked first — in both classifiers:
`shouldProxy` matches the raw URL against the exclude prefixes before
consulting the proxy paths (its normalization is the identity), and
`shouldUseBridge` matches the parsed pathname against the exclude prefixes
before the bridge paths and the default heuristic. -/
theorem excludeBeatsInclude :
    (∀ (cfg : HpConfig) (url ep : String),
      ep ∈ cfg.excludePaths → jsStartsWith url ep = true →
      shouldProxy cfg url = false) ∧
    (∀ (cfg : BridgeConfig) (url pathname ep : String),
      parseUrlPathname url = some pathname → ep ∈ cfg.excludePaths →
      jsStartsWith pathname ep = true → shouldUseBridge cfg url = false) := by
  constructor
  · intro cfg url ep hmem hpre
    have hany : cfg.excludePaths.any (fun p => jsStartsWith url p) = true :=
      List.any_eq_true.mpr ⟨ep, hmem, hpre⟩
    simp [shouldProxy, hany]
  · intro cfg url pathname ep hparse hmem hpre
    have hany : cfg.excludePaths.any (fun p => jsStartsWith pathname p) = true :=
      List.any_eq_true.mpr ⟨ep, hmem, hpre⟩
    simp [shouldUseBridge, hparse, bridgeDecision, hany]

/-- Witness for C3: the excluded path `/static/app.css` (scenario 2 of the
spec) is rejected by both classifiers. -/
theorem excludeBeatsIncludeWitness :
    shouldProxy defaultHpConfig "/static/app.css" = false ∧
    shouldUseBridge defaultBridgeConfig "/static/app.css" = false :=
  ⟨excludeBeatsInclude.1 defaultHpConfig "/static/app.css" "/static"
      (by decide) (by decide),
   excludeBeatsInclude.2 defaultBridgeConfig "/static/app.css" "/static/app.css"
      "/static/" (by decide) (by decide) (by decide)⟩

/-- Claim C8: the path classifier is a total Boolean function (the embedding
is total because the `catch` absorbs the only throwing operation), and every
URL on which the URL constructor throws — `parseUrlPathname url = none` — is
classified as do-not-bridge. -/
theorem malformedUrlNotBridged (cfg : BridgeConfig) (url : String)
    (h : parseUrlPathname url = none) : shouldUseBridge cfg url = false := by
  simp [shouldUseBridge, h]

/-- Witness for C8: `http://` (scheme with empty host) makes the URL
constructor throw; the decision is false. -/
theorem malformedUrlNotBridgedWitness :
    parseUrlPathname "http://" = none ∧
    shouldUseBridge defaultBridgeConfig "http://" = false :=
  ⟨by decide, malformedUrlNotBridged defaultBridgeConfig "http://" (by decide)⟩

/-- Claim C10: under the default configuration of tauri-http-proxy, every URL
beginning with `http://` or `https://` is classified do-not-bridge (those
scheme prefixes are in the default exclude list), and — under any
configuration — a URL not beginning with `/` never reaches the include-prefix
test, so only origin-relative URLs can be proxied. -/
theorem absoluteUrlsNeverProxied :
    (∀ url : String,
      jsStartsWith url "http://" = true ∨ jsStartsWith url "https://" = true →
      shouldProxy defaultHpConfig url = false) ∧
    (∀ (cfg : HpConfig) (url : String),
      jsStartsWith url "/" = false → shouldProxy cfg url = false) := by
  constructor
  · intro url h
    have hany : defaultHpConfig.excludePaths.any (fun p => jsStartsWith url p) = true := by
      rcases h with h | h
      · exact List.any_eq_true.mpr ⟨"http://", by decide, h⟩
      · exact List.any_eq_true.mpr ⟨"https://", by decide, h⟩
    simp [shouldProxy, hany]
  · intro cfg url h
    by_cases hany : cfg.excludePaths.any (fun p => jsStartsWith url p) = true
    · simp [shouldProxy, hany]
    · simp [shouldProxy, hany, h]

/-- Witness for C10: an absolute URL whose path matches an include prefix is
still not proxied, and a non-slash URL is not proxied. -/
theorem absoluteUrlsNeverProxiedWitness :
    shouldProxy defaultHpConfig "https://example.com/api/config" = false ∧
    shouldProxy defaultHpConfig "data:text/plain,hi" = false :=
  ⟨absoluteUrlsNeverProxied.1 "https://example.com/api/config" (Or.inr (by decide)),
   absoluteUrlsNeverProxied.2 defaultHpConfig "data:text/plain,hi" (by decide)⟩

/-- Claim C2 counterexample: a successfully bridged response with a declared
binary content type and the single body byte 255 is not round-tripped — the
pipeline decodes every body as UTF-8 text, so the caller's view of the body is
the replacement character's bytes `EF BF BD`, not the original byte `FF`. -/
theorem bridgedRoundtripBinaryCex :
    responseBodyBytes (translateResponse binEnvelope) = [0xEF, 0xBF, 0xBD] ∧
    binEnvelope.body = [255] ∧
    responseBodyBytes (translateResponse binEnvelope) ≠ binEnvelope.body := by
  refine ⟨by decide, rfl, by decide⟩

/-- Claim C2 (amended): for every successfully bridged response whose body
bytes are valid UTF-8, the caller receives the same status code, the same
headers (names ASCII-lowercased by the `Headers` constructor), and a body
whose UTF-8 bytes are exactly the handler's body bytes. The code decodes
every body as UTF-8 text regardless of the declared content type, so bodies
that are not valid UTF-8 (binary payloads) are lossily transformed instead of
being passed through as opaque bytes. -/
theorem bridgedResponseRoundtrip (r : ResponseEnvelope)
    (hbytes : isByteList r.body = true) (hvalid : validUtf8 r.body = true) :
    (translateResponse r).status = r.status_code ∧
    (translateResponse r).headers = lowerHeaders r.headers ∧
    responseBodyBytes (translateResponse r) = r.body := by
  refine ⟨rfl, rfl, ?_⟩
  show utf8Encode (utf8Decode (r.body.map (fun b => b % 256))) = r.body
  rw [byteListMapMod r.body hbytes]
  exact utf8RoundTrip r.body hvalid

/-- Witness for C2: the JSON body of scenario 1 (`{"name":"test"}`)
round-trips byte-for-byte. -/
theorem bridgedResponseRoundtripWitness :
    isByteList jsonEnvelope.body = true ∧ validUtf8 jsonEnvelope.body = true ∧
    responseBodyBytes (translateResponse jsonEnvelope) = jsonEnvelope.body :=
  ⟨by decide, by decide,
   (bridgedResponseRoundtrip jsonEnvelope (by decide) (by decide)).2.2⟩

/-- Claim C6 counterexample: the tauri-bridge translator builds a GET envelope
that carries the caller's erroneous body — the body field depends only on the
truthiness of `options?.body`, never on the method. -/
theorem getWithBodyCex :
    (mkBridgeRequest "/api/config" (some getWithBody)).method = "GET" ∧
    (mkBridgeRequest "/api/config" (some getWithBody)).body = some "x" := by
  refine ⟨by decide, by decide⟩

/-- Claim C6 (amended): an envelope built by the tauri-bridge translator omits
the body field iff the caller-supplied body is absent or the empty string
(JS-falsy), regardless of the method — a GET or HEAD envelope is bodyless
exactly when the caller supplied no truthy body, not unconditionally. -/
theorem bridgeRequestBody (url : String) (opts : Option FetchOptions) :
    (mkBridgeRequest url opts).body = none ↔
      optBody opts = none ∨ optBody opts = some "" := by
  show (if jsTruthy (optBody opts) then optBody opts else none) = none ↔ _
  rcases hob : optBody opts with _ | s
  · simp [jsTruthy]
  · by_cases hs : s = ""
    · subst hs
      simp [jsTruthy]
    · simp [jsTruthy, hs]

/-- Claim C7 counterexample: `setConfig({debug: true})` leaves the `CONFIG`
reference unchanged and changes the contents of the object it already pointed
to — the pre-override configuration object is not left unchanged, and the
update is an in-place field mutation, not a wholesale replacement. -/
theorem setConfigMutatesCex :
    (setConfig initialHeap debugPatch).configRef = initialHeap.configRef ∧
    (setConfig initialHeap debugPatch).store initialHeap.configRef ≠
      initialHeap.store initialHeap.configRef := by
  refine ⟨rfl, by decide⟩

/-- Claim C7 (amended): `setConfig` merges the override into the shared
configuration object in place, `Object.assign`-style: the `CONFIG` reference
is unchanged, each patched field takes the override value, each unpatched
field keeps its value, and no other heap object is touched. On the
single-threaded runtime the merge completes before any reader runs, but a
reader holding the object reference observes the merged values — the
pre-override contents are not preserved anywhere. -/
theorem setConfigMergesInPlace (h : ModuleHeap) (p : ConfigPatch) :
    (setConfig h p).configRef = h.configRef ∧
    readCONFIG (setConfig h p) = objectAssign (readCONFIG h) p ∧
    (readCONFIG (setConfig h p)).tauriCommand
      = p.tauriCommand.getD (readCONFIG h).tauriCommand ∧
    (readCONFIG (setConfig h p)).proxyPaths
      = p.proxyPaths.getD (readCONFIG h).proxyPaths ∧
    (readCONFIG (setConfig h p)).excludePaths
      = p.excludePaths.getD (readCONFIG h).excludePaths ∧
    (readCONFIG (setConfig h p)).debug = p.debug.getD (readCONFIG h).debug ∧
    ∀ i, i ≠ h.configRef → (setConfig h p).store i = h.store i := by
  have hread : readCONFIG (setConfig h p) = objectAssign (readCONFIG h) p := by
    simp [readCONFIG, setConfig]
  refine ⟨rfl, hread, ?_, ?_, ?_, ?_, ?_⟩
  · rw [hread]; rfl
  · rw [hread]; rfl
  · rw [hread]; rfl
  · rw [hread]; rfl
  · intro i hi
    simp [setConfig, hi]

/-- Witness for C7: the concrete override `{debug: true}` on the initial heap
merges in place and leaves the unrelated heap cell 1 untouched. -/
theorem setConfigMergesInPlaceWitness :
    (setConfig initialHeap debugPatch).configRef = initialHeap.configRef ∧
    readCONFIG (setConfig initialHeap debugPatch)
      = objectAssign (readCONFIG initialHeap) debugPatch ∧
    (readCONFIG (setConfig initialHeap debugPatch)).debug = true ∧
    (setConfig initialHeap debugPatch).store 1 = initialHeap.store 1 := by
  have t := setConfigMergesInPlace initialHeap debugPatch
  exact ⟨t.1, t.2.1, by decide, t.2.2.2.2.2.2 1 (by decide)⟩

/-- Auxiliary for C9: with the backend ready throughout, if the API test fails
for every count below `n` and succeeds at `n` (with `n` at most the retry
budget), `initialize` entered at count `j` completes normally with the counter
left at `n`. -/
theorem runInitializeReaches (api : Nat → Bool) (n : Nat)
    (hn : n ≤ INTEGRATION_retryAttempts)
    (hf : ∀ k, k < n → api k = false) (ht : api n = true) :
    ∀ d j b, n - j = d → j ≤ n →
      runInitialize (fun _ => true) api
        { isInitialized := false, isBackendReady := b, retryCount := j }
        = Except.ok { isInitialized := true, isBackendReady := true, retryCount := n } := by
  intro d
  induction d with
  | zero =>
    intro j b hd hj
    have hjn : j = n := by omega
    subst hjn
    rw [runInitialize]
    simp only [Bool.false_eq_true, if_false, reduceCtorEq]
    rw [dif_neg (by simp [ht])]
  | succ d ih =>
    intro j b hd hj
    have hjn : j < n := by omega
    rw [runInitialize]
    simp only [Bool.false_eq_true, if_false, reduceCtorEq]
    rw [dif_pos ⟨hf j hjn, by omega⟩]
    exact ih (j + 1) true (by omega) (by omega)

/-- Auxiliary for C9: no `initialize` run — normal or thrown — ever decreases
the retry counter. -/
theorem runInitializeMono :
    ∀ (d : Nat) (ready api : Nat → Bool) (s : IntState),
      INTEGRATION_retryAttempts + 1 - s.retryCount ≤ d →
      s.retryCount ≤ (intStateOf (runInitialize ready api s)).retryCount := by
  intro d
  induction d with
  | zero =>
    intro ready api s hd
    rw [runInitialize]
    by_cases hi : s.isInitialized = true
    · rw [if_pos hi]
      exact Nat.le_refl _
    · rw [if_neg hi]
      by_cases hr : ready s.retryCount = false
      · rw [if_pos hr]
        exact Nat.le_refl _
      · rw [if_neg hr]
        rw [dif_neg (by omega)]
        exact Nat.le_refl _
  | succ d ih =>
    intro ready api s hd
    rw [runInitialize]
    by_cases hi : s.isInitialized = true
    · rw [if_pos hi]
      exact Nat.le_refl _
    · rw [if_neg hi]
      by_cases hr : ready s.retryCount = false
      · rw [if_pos hr]
        exact Nat.le_refl _
      · rw [if_neg hr]
        by_cases hc : api s.retryCount = false ∧ s.retryCount < INTEGRATION_retryAttempts
        · rw [dif_pos hc]
          have step := ih ready api
            { isInitialized := s.isInitialized, isBackendReady := true,
              retryCount := s.retryCount + 1 }
            (show INTEGRATION_retryAttempts + 1 - (s.retryCount + 1) ≤ d by omega)
          have step2 : s.retryCount + 1 ≤
              (intStateOf (runInitialize ready api
                { isInitialized := s.isInitialized, isBackendReady := true,
                  retryCount := s.retryCount + 1 })).retryCount := step
          omega
        · rw [dif_neg hc]
          exact Nat.le_refl _

/-- Claim C1 (code evidence): the redirect `while` loop of tauri-bridge
`proxyFetch` has no iteration cap — against a handler that always answers 302
with a `location` header it never terminates and never surfaces a cap error:
no number of observed loop iterations (`fuel`) yields a result. (The
tauri-http-proxy variant resolves a single hop only, likewise without any cap
error.) -/
theorem redirectChaseDiverges :
    ∀ fuel : Nat, redirectChase alwaysRedirect fuel redirect302 = none := by
  intro fuel
  induction fuel with
  | zero => rfl
  | succ n ih =>
    have hcond : REDIRECT_CODES.contains redirect302.status_code = true := rfl
    show (if REDIRECT_CODES.contains redirect302.status_code then
        redirectChase alwaysRedirect n
          (alwaysRedirect
            (mkRedirectRequest ((headerValue redirect302.headers "location").getD "")))
      else some redirect302) = none
    rw [hcond, if_pos rfl]
    exact ih

/-- Claim C4 counterexample: when the native invocation fails and the fallback
fetch also fails, the caller receives the fallback's rejection, not the
original bridge error — the bridge error is replaced, not surfaced unchanged. -/
theorem fallbackReplacesErrorCex :
    hpProxyFetch bridgeDown networkDown defaultHpConfig "/api/config" none
      = Except.error "network unreachable" ∧
    (Except.error "network unreachable" : Except String BridgedResponse)
      ≠ Except.error "bridge unreachable" := by
  refine ⟨rfl, fun h => absurd (Except.error.inj h) (by decide)⟩

/-- Claim C4 (amended): on a failing native invocation the tauri-http-proxy
pipeline re-issues the identical original request through the saved original
fetch instead of rejecting immediately — the call's outcome is exactly the
fallback's outcome on the original arguments; in particular a failing fallback
surfaces the fallback's error, the original bridge error being only logged.
(The tauri-bridge `proxyFetch` performs no fallback at all.) -/
theorem hpFallbackOnBridgeError
    (inv : RequestEnvelope → Except String ResponseEnvelope)
    (orig : String → Option FetchOptions → Except String BridgedResponse)
    (cfg : HpConfig) (url : String) (opts : Option FetchOptions) (e : String)
    (hinv : inv (mkHpRequest url opts) = Except.error e) :
    hpProxyFetch inv orig cfg url opts = orig url opts := by
  unfold hpProxyFetch hpBridgeAttempt
  rw [hinv]
  split_ifs <;> rfl

/-- Witness for C4: with the bridge down and a working network, the bridged
call completes with the fallback's response. -/
theorem hpFallbackOnBridgeErrorWitness :
    hpProxyFetch bridgeDown networkOk defaultHpConfig "/api/config" none
      = networkOk "/api/config" none :=
  hpFallbackOnBridgeError bridgeDown networkOk defaultHpConfig "/api/config" none
    "bridge unreachable" rfl

/-- Claim C5 counterexample: a bridged XHR aborted right after `send` (the
patched fetch never reads `options.signal`) still completes normally — the
trace shows the abort (`readystatechange` with `readyState` back at 0)
followed by the readyState-4 `readystatechange` and the `load` completion
event; and `abort()` itself puts `readyState` at `UNSENT`, a backward
transition, not a distinct terminal state. -/
theorem abortedXhrStillCompletesCex :
    (runSend false true false).events =
      [XhrEvent.readystatechange 0, XhrEvent.readystatechange 1,
       XhrEvent.readystatechange 2, XhrEvent.readystatechange 0,
       XhrEvent.readystatechange 3, XhrEvent.readystatechange 4, XhrEvent.load] ∧
    (abortXhr (sendStart (openXhr newXhr))).readyState = UNSENT := by
  refine ⟨by decide, by decide⟩

/-- Claim C5 (amended): `abort()` before completion forces `readyState` back
to 0 (UNSENT — the code's aborted state is a backward transition) and fires
`readystatechange`. When the underlying fetch honors the cancellation signal
(the pass-through path), the promise rejects, so no `load` and no readyState-4
`readystatechange` ever fires afterwards — only the error callback. On the
bridged path the patched fetch ignores the signal, so the operation still
fires the readyState-4 `readystatechange` and `load` after the abort. -/
theorem abortSemantics (a1 a2 : Bool) (h : (a1 || a2) = true) :
    ((runSend true a1 a2).readyState = UNSENT ∧
     XhrEvent.load ∉ (runSend true a1 a2).events ∧
     XhrEvent.readystatechange 4 ∉ (runSend true a1 a2).events) ∧
    ((runSend false a1 a2).readyState = 4 ∧
     XhrEvent.load ∈ (runSend false a1 a2).events) := by
  cases a1 <;> cases a2 <;>
    first
      | decide
      | exact absurd h (by decide)

/-- Witness for C5: abort scheduled before the response microtask. -/
theorem abortSemanticsWitness :
    ((runSend true true false).readyState = UNSENT ∧
     XhrEvent.load ∉ (runSend true true false).events ∧
     XhrEvent.readystatechange 4 ∉ (runSend true true false).events) ∧
    ((runSend false true false).readyState = 4 ∧
     XhrEvent.load ∈ (runSend false true false).events) :=
  abortSemantics true false rfl

/-- Claim C9: the retry counter is module-wide state that only `reset` clears:
an initialization whose API test fails exactly `n` times and then succeeds
completes normally with the counter reading `n` (ordinary completion never
clears it); no `initialize` run — returning or throwing — ever decreases the
counter; and `reset` is the operation that sets it to 0. -/
theorem retryCountSingleton :
    (∀ (api : Nat → Bool) (n : Nat), n ≤ INTEGRATION_retryAttempts →
      (∀ k, k < n → api k = false) → api n = true →
      runInitialize (fun _ => true) api initialIntState
        = Except.ok { isInitialized := true, isBackendReady := true, retryCount := n }) ∧
    (∀ (ready api : Nat → Bool) (s : IntState),
      s.retryCount ≤ (intStateOf (runInitialize ready api s)).retryCount) ∧
    (∀ s : IntState, (reset s).retryCount = 0) := by
  refine ⟨?_, ?_, fun _ => rfl⟩
  · intro api n hn hf ht
    exact runInitializeReaches api n hn hf ht n 0 false (by omega) (by omega)
  · intro ready api s
    exact runInitializeMono (INTEGRATION_retryAttempts + 1 - s.retryCount) ready api s
      (Nat.le_refl _)

/-- Witness for C9: an API test failing twice then succeeding leaves the
counter at 2 after the initialization completes, and `reset` clears it. -/
theorem retryCountSingletonWitness :
    runInitialize (fun _ => true) (fun k => decide (2 ≤ k)) initialIntState
      = Except.ok { isInitialized := true, isBackendReady := true, retryCount := 2 } ∧
    (reset { isInitialized := true, isBackendReady := true, retryCount := 2 }).retryCount
      = 0 := by
  have t := retryCountSingleton
  refine ⟨t.1 (fun k => decide (2 ≤ k)) 2 (by decide) ?_ (by decide),
    t.2.2 { isInitialized := true, isBackendReady := true, retryCount := 2 }⟩
  intro k hk
  interval_cases k <;> decide
